import Mathlib

/-!
Verification of the result-batching and reconciliation engine of the
pytest-testrail plugin (`src/pytest_testrail/plugin.py`).

Text is modelled as `List Char` (named `Str`): Python strings are sequences
of characters and all the operations the plugin performs on them (slicing,
`split`, `replace`, substring tests, regular-expression scanning) are
implemented below directly on character lists, following the Python
semantics of each operation.
-/

namespace PytestTestrail

/-- Python strings, modelled as lists of characters. -/
abbrev Str := List Char

/-- Embed a Lean string literal as a `Str`. -/
def str (s : String) : Str := s.data

/-- `TESTRAIL_TEST_STATUS["failed"]` (plugin.py line 16). -/
def STATUS_FAILED : Nat := 5

/-- `TESTRAIL_TEST_STATUS["blocked"]` (plugin.py line 13). -/
def STATUS_BLOCKED : Nat := 2

/-- `TESTRAIL_TEST_STATUS["terraformerror"]` (plugin.py line 19), the dedicated
infra-error status code. -/
def STATUS_TERRAFORM : Nat := 8

/-- `COMMENT_SIZE_LIMIT` (plugin.py line 44). -/
def COMMENT_SIZE_LIMIT : Nat := 4000

/-- Python `str(n)` for a natural number. -/
def natToStr (n : Nat) : Str := (Nat.repr n).data

/-- Python `str(n)` for an integer. -/
def intToStr (n : Int) : Str := (Int.repr n).data

/-- Python `s.replace("\n", "\n    ")`, the re-indentation applied to comments
in `add_results` (plugin.py lines 466-470). -/
def pyIndent : Str → Str
  | [] => []
  | c :: rest =>
      if c = '\n' then '\n' :: ' ' :: ' ' :: ' ' :: ' ' :: pyIndent rest
      else c :: pyIndent rest

/-- Python `s[-n:]`: the last `n` characters of `s` (all of `s` when
`s.length ≤ n`). -/
def takeLast (n : Nat) (s : Str) : Str := s.drop (s.length - n)

/-- Python substring containment `needle in hay`. -/
def strContains (hay needle : Str) : Bool :=
  match hay with
  | [] => needle.isEmpty
  | _ :: rest => needle.isPrefixOf hay || strContains rest needle

/-- Auxiliary scanner for Python `str.split(sep)` with non-empty separator
`sepH :: sepT`.  `fuel` bounds the recursion and is initialised to the length
of the scanned text, which every step strictly decreases by at least one
character. -/
def pySplitAux (sepH : Char) (sepT : Str) : Nat → Str → Str → List Str
  | _, [], acc => [acc.reverse]
  | 0, s, acc => [acc.reverse ++ s]
  | fuel + 1, c :: rest, acc =>
      if c == sepH && sepT.isPrefixOf rest then
        acc.reverse :: pySplitAux sepH sepT fuel (rest.drop sepT.length) []
      else
        pySplitAux sepH sepT fuel rest (c :: acc)

/-- Python `s.split(sep)` for a non-empty separator: splits at every
non-overlapping occurrence of `sep`, scanning left to right; always returns
at least one (possibly empty) fragment. -/
def pySplit (s sep : Str) : List Str :=
  match sep with
  | [] => [s]
  | h :: t => pySplitAux h t s.length s []

/-- One accumulated result record, as appended by
`PyTestRailPlugin.add_result` (plugin.py lines 344-352). -/
structure ResultRecord where
  case_id : Nat
  status_id : Nat
  comment : Str
  duration : Rat
  defects : Option Str
  test_parametrize : Option Str
deriving DecidableEq

/-- One entry of the batch payload built by `add_results`
(plugin.py lines 443-492).  Optional fields model dictionary keys that are
absent (`version`, `elapsed`) or set to Python `None` (`comment`,
`defects`). -/
structure Entry where
  status_id : Nat
  case_id : Nat
  defects : Option Str
  version : Option Str
  comment : Option Str
  elapsed : Option Str
deriving DecidableEq

/-- One entry of the per-result fallback submissions made by
`add_error_results` (plugin.py lines 374-379). -/
structure ErrorEntry where
  case_id : Nat
  status_id : Nat
  comment : Str
  defects : Str
deriving DecidableEq

/-- One element of the service response to the batch submission, as consumed
by the loop at plugin.py lines 501-505. -/
structure RespEntry where
  status_id : Nat
  comment : Str
deriving DecidableEq

/-- A network request issued through the TestRail client.  Each constructor
records the endpoint and the payload of one `send_post`/`send_get` call. -/
inductive NetCall where
  | getTests (run : Nat)
  | getPlan (plan : Nat)
  | addResultsBatch (run : Nat) (entries : List Entry)
  | addResultForCase (run : Nat) (testId : Str) (statusId : Str) (comment : Str)
  | addErrorSingle (run : Nat) (entry : ErrorEntry)
  | closeRun (run : Nat)
  | closePlan (plan : Nat)
deriving DecidableEq

/-- The `testId` recorded in an `add_result_for_case` call, if any. -/
def netCallTestId : NetCall → Option Str
  | NetCall.addResultForCase _ id _ _ => some id
  | _ => none

/-- The plugin configuration fields consulted by the publish step
(constructor arguments of `PyTestRailPlugin`, plugin.py lines 151-170).
A `testrun_id`/`testplan_id` of `0` is the unset sentinel. -/
structure Config where
  testrun_id : Nat
  testplan_id : Nat
  publish_blocked : Bool
  custom_comment : Option Str
  version : Str
  close_on_complete : Bool

/-- The external collaborators' behaviour during one publish step: the
TestRail client `send_get`/`send_post` responses consumed by the plugin.
`tests run` models the `get_tests` response as `(case_id, status_id)` pairs;
`batchResponse run` the iterable response to the batch POST;
`batchError run` the result of `client.get_error` on the final response
element of the batch POST; `planRuns` the open run ids that
`get_available_testruns` resolves from the test plan. -/
structure Oracle where
  tests : Nat → List (Nat × Nat)
  batchResponse : Nat → List RespEntry
  batchError : Nat → Option Str
  planRuns : List Nat

/-! ## The Terraform-error regular expression

`extract_terraform_errors` (plugin.py lines 303-310) scans the error text
with `re.finditer` over the raw pattern `case (\d+).*?TerraformException: (.+?)\\n`.
In a raw Python string the trailing `\\n` is a regex escape for a literal
backslash followed by the letter n, not a newline.  `.` does not match an
actual newline character.  `\d+` is greedy, `.*?` and `(.+?)` are lazy.
The functions below implement exactly this matching, leftmost match first,
non-overlapping, resuming after each match. -/

/-- The literal part `TerraformException: ` of the pattern. -/
def tfLit : Str := str "TerraformException: "

/-- The literal regex tail `\\n`: one backslash character followed by `n`. -/
def tfEnd : Str := ['\\', 'n']

/-- Split off the maximal leading run of decimal digits (the greedy `\d+`). -/
def digitsPrefixOf : Str → Str × Str
  | [] => ([], [])
  | c :: rest =>
      if c.isDigit then
        let p := digitsPrefixOf rest
        (c :: p.1, p.2)
      else ([], c :: rest)

/-- Match `(.+?)\\n` lazily against `s`, with `acc` holding the (reversed)
message characters consumed so far: accept at the first literal `\\n` found
after at least one message character, never crossing an actual newline.
Returns the captured message and the remainder after the match. -/
def tfFindMsg (acc : Str) : Str → Option (Str × Str)
  | [] => none
  | c :: rest =>
      if acc ≠ [] && tfEnd.isPrefixOf (c :: rest) then
        some (acc.reverse, (c :: rest).drop tfEnd.length)
      else if c = '\n' then none
      else tfFindMsg (c :: acc) rest

/-- Match `.*?TerraformException: (.+?)\\n` lazily against `s`: try the
earliest occurrence of the literal `TerraformException: ` reachable without
crossing a newline; if the message part fails there, backtrack and try the
next occurrence.  Returns the captured message and the remainder. -/
def tfMatchTail : Str → Option (Str × Str)
  | [] => none
  | c :: rest =>
      if tfLit.isPrefixOf (c :: rest) then
        match tfFindMsg [] ((c :: rest).drop tfLit.length) with
        | some r => some r
        | none => if c = '\n' then none else tfMatchTail rest
      else if c = '\n' then none else tfMatchTail rest

/-- Try to match the whole pattern at the start of `s`.  Returns the captured
digit group, the captured message, and the remainder after the match. -/
def tfMatchAt (s : Str) : Option (Str × Str × Str) :=
  if (str "case ").isPrefixOf s then
    let p := digitsPrefixOf (s.drop 5)
    if p.1 = [] then none
    else
      match tfMatchTail p.2 with
      | some (msg, rest) => some (p.1, msg, rest)
      | none => none
  else none

/-- `re.finditer` over the pattern: scan left to right, emit non-overlapping
matches, resume after each match.  `fuel` is initialised to the length of the
text; every step consumes at least one character. -/
def tfFinditer : Nat → Str → List (Str × Str)
  | 0, _ => []
  | _, [] => []
  | fuel + 1, s@(_ :: rest) =>
      match tfMatchAt s with
      | some (ds, msg, r) => (ds, msg) :: tfFinditer fuel r
      | none => tfFinditer fuel rest

/-- All `(case id, message)` pairs produced by the regex scan of an error
message, in match order. -/
def tfMatches (e : Str) : List (Str × Str) := tfFinditer e.length e

/-- Python dictionary assignment `d[k] = v` on an association list with
distinct keys: if the key is present its value is replaced in place
(keeping the key's position), otherwise the pair is appended. -/
def dictInsert : List (Str × Str) → Str → Str → List (Str × Str)
  | [], k, v => [(k, v)]
  | p :: rest, k, v =>
      if p.1 = k then (k, v) :: rest else p :: dictInsert rest k v

/-- `PyTestRailPlugin.extract_terraform_errors` (plugin.py lines 303-310):
fold the regex matches into a Python dict keyed by the case-id group, so a
later match for the same case id overwrites the earlier message; `.items()`
iterates in key-insertion order, which the association list preserves. -/
def extract_terraform_errors (e : Str) : List (Str × Str) :=
  (tfMatches e).foldl (fun d p => dictInsert d p.1 p.2) []

/-! ## Result accumulation -/

/-- The comment-marker driven status upgrade inside the `add_result` loop
(plugin.py lines 340-342): a FAILED status whose comment mentions
`TerraformException` is upgraded to the Terraform-error status. -/
def upgradeStatus (status : Nat) (comment : Str) : Nat :=
  if status = STATUS_FAILED ∧ strContains comment (str "TerraformException") = true then
    STATUS_TERRAFORM
  else status

/-- `PyTestRailPlugin.add_result` (plugin.py lines 324-354): append one
record per test id to the accumulator.  `status` is a local of the Python
loop, so once upgraded on the first iteration it stays upgraded (`8 ≠ 5`);
every appended record therefore carries `upgradeStatus status comment`. -/
def add_result (results : List ResultRecord) (test_ids : List Nat) (status : Nat)
    (comment : Str) (defects : Option Str) (duration : Rat)
    (test_parametrize : Option Str) : List ResultRecord :=
  results ++ test_ids.map fun id =>
    { case_id := id
      status_id := upgradeStatus status comment
      comment := comment
      duration := duration
      defects := defects
      test_parametrize := test_parametrize }

/-! ## Batch payload construction (`add_results`, plugin.py lines 394-511) -/

/-- Python truthiness of an optional string: `None` and the empty string are
falsy. -/
def truthyOpt : Option Str → Bool
  | none => false
  | some s => !s.isEmpty

/-- The part of an uploaded comment that precedes the (possibly truncated)
failure text: the `# Test parametrize: #` block when parametrize data is
truthy, the custom comment plus newline when configured, then the
`# Pytest result: #` heading (plugin.py lines 452-460, 471-473). -/
def commentHead (custom : Option Str) (tp : Option Str) : Str :=
  (if truthyOpt tp then str "# Test parametrize: #\n" ++ tp.getD [] ++ str "\n\n" else [])
    ++ (if truthyOpt custom then custom.getD [] ++ str "\n" else [])
    ++ str "# Pytest result: #\n"

/-- The `comment` field of a payload entry (plugin.py lines 450-485).  For a
truthy comment: heading, then the truncation marker when the comment exceeds
`COMMENT_SIZE_LIMIT`, then four spaces and the last `COMMENT_SIZE_LIMIT`
characters with every newline re-indented.  For an empty comment the field is
overwritten with the configured custom comment (possibly Python `None`). -/
def buildCommentField (custom : Option Str) (comment : Str) (tp : Option Str) :
    Option Str :=
  if comment.isEmpty then custom
  else
    some (commentHead custom tp
      ++ (if COMMENT_SIZE_LIMIT < comment.length then str "Log truncated\n...\n" else [])
      ++ str "    " ++ pyIndent (takeLast COMMENT_SIZE_LIMIT comment))

/-- Python 3 `round`: round half to even (banker's rounding). -/
def pyRound (q : Rat) : Int :=
  if q - ⌊q⌋ < 1 / 2 then ⌊q⌋
  else if 1 / 2 < q - ⌊q⌋ then ⌊q⌋ + 1
  else if ⌊q⌋ % 2 = 0 then ⌊q⌋ else ⌊q⌋ + 1

/-- The `elapsed` field of a payload entry (plugin.py lines 486-491): absent
for a falsy (zero) duration; `1s` for durations below one second; otherwise
the duration rounded by Python `round` with an `s` suffix. -/
def elapsedField (duration : Rat) : Option Str :=
  if duration = 0 then none
  else some (intToStr (if duration < 1 then 1 else pyRound duration) ++ str "s")

/-- One payload entry built from a result record (plugin.py lines 443-492). -/
def buildEntry (cfg : Config) (r : ResultRecord) : Entry :=
  { status_id := r.status_id
    case_id := r.case_id
    defects := r.defects
    version := if cfg.version.isEmpty then none else some cfg.version
    comment := buildCommentField cfg.custom_comment r.comment r.test_parametrize
    elapsed := elapsedField r.duration }

/-- The in-place stable ascending sort `self.results.sort(key=itemgetter("case_id"))`
(plugin.py line 407).  Python's sort is stable; any stable sort with the same
total preorder computes the same list, so it is modelled by the stable
`List.insertionSort`. -/
def caseLE (a b : ResultRecord) : Prop := a.case_id ≤ b.case_id

instance : DecidableRel caseLE := fun a b => Nat.decLe a.case_id b.case_id

instance : IsTotal ResultRecord caseLE := ⟨fun a b => Nat.le_total a.case_id b.case_id⟩

instance : IsTrans ResultRecord caseLE := ⟨fun _ _ _ => Nat.le_trans⟩

def sortResults (results : List ResultRecord) : List ResultRecord :=
  results.insertionSort caseLE

/-- The blocked case ids extracted from a `get_tests` response
(plugin.py lines 416-420). -/
def blockedList (tests : List (Nat × Nat)) : List Nat :=
  (tests.filter fun t => t.2 == STATUS_BLOCKED).map Prod.fst

/-- The blocked-case exclusion applied to the sorted accumulator when
`publish_blocked` is disabled (plugin.py lines 410-430). -/
def filterBlocked (publish_blocked : Bool) (blocked : List Nat)
    (results : List ResultRecord) : List ResultRecord :=
  if publish_blocked then results
  else results.filter fun r => !blocked.contains r.case_id

/-- Outcome of `PyTestRailPlugin.add_results` (plugin.py lines 394-511): the
network calls issued, the new value of `self.results` (the method sorts the
accumulator in place and reassigns it when filtering blocked cases), and the
error string returned to the caller. -/
structure AddResultsOut where
  calls : List NetCall
  results : List ResultRecord
  error : Option Str
deriving DecidableEq

/-- `PyTestRailPlugin.add_results`: sort the accumulator in place, drop
blocked cases when `publish_blocked` is off (preceded by a `get_tests`
query), build and POST the batch payload, then re-post any response entry
whose comment mentions `TerraformException` via `add_terraform_error_results`
(which formats the path from the response's `status_id` and prefixes the
comment with `Terraform Exception: `, plugin.py lines 501-505 and 312-319),
and finally return `client.get_error` of the last response element. -/
def add_results (cfg : Config) (o : Oracle) (run : Nat)
    (results : List ResultRecord) : AddResultsOut :=
  let sorted := sortResults results
  let kept := filterBlocked cfg.publish_blocked (blockedList (o.tests run)) sorted
  let preCalls : List NetCall :=
    if cfg.publish_blocked then [] else [NetCall.getTests run]
  let entries := kept.map (buildEntry cfg)
  let tfCalls :=
    ((o.batchResponse run).filter fun e =>
        strContains e.comment (str "TerraformException")).map fun e =>
      NetCall.addResultForCase run (natToStr e.status_id) (str "8")
        (str "Terraform Exception: " ++ e.comment)
  { calls := preCalls ++ [NetCall.addResultsBatch run entries] ++ tfCalls
    results := kept
    error := o.batchError run }

/-! ## Reconciliation (`publish_results_for_run`, plugin.py lines 284-301) -/

/-- Python cross-type equality `int == str`, used when the generic
reconciliation filter compares an accumulated integer `case_id` with the
string tokens extracted from the error text: always `False`. -/
def pyEqNatStr (_ : Nat) (_ : Str) : Bool := false

/-- The leading-`C` strip in `add_error_results` (plugin.py line 370). -/
def stripC : Str → Str
  | 'C' :: rest => rest
  | s => s

/-- `PyTestRailPlugin.add_error_results` (plugin.py lines 357-392): strip a
leading `C` from each invalid id, keep the accumulated results whose
`case_id` is not among them (an integer is never equal to a string, so
nothing is ever excluded), and POST one single-entry `add_results_for_cases`
request per kept result, with the generic failed status, the original error
text as comment, and empty defects.  `self.results` is not modified. -/
def add_error_results (run : Nat) (invalid_test_ids : List Str) (error : Str)
    (results : List ResultRecord) : List NetCall :=
  let ids := invalid_test_ids.map stripC
  let valid := results.filter fun r => !ids.any (pyEqNatStr r.case_id)
  valid.map fun r =>
    NetCall.addErrorSingle run
      { case_id := r.case_id, status_id := STATUS_FAILED, comment := error, defects := [] }

/-- The generic-invalid-id extraction in `publish_results_for_run`
(plugin.py lines 295-296): split the error text on `)`, keep the fragments
containing `case`, and in each take the token following `case ` up to the
next space.  `none` models the `IndexError` Python raises when such a
fragment has no occurrence of `case ` (then `split('case ')[1]` is out of
range). -/
def extractInvalidIds (e : Str) : Option (List Str) :=
  ((pySplit e (str ")")).filter fun p => strContains p (str "case")).mapM fun p =>
    match pySplit p (str "case ") with
    | _ :: second :: _ => some ((pySplit second (str " ")).headD [])
    | _ => none

/-- The per-pair Terraform submissions issued by the loop at plugin.py
lines 290-291 via `add_terraform_error_results` (lines 312-319): one POST to
`add_result_for_case/run/test_id` with the string status `8` and the comment
`Terraform Exception: ` followed by the extracted message. -/
def tfPosts (run : Nat) (tf : List (Str × Str)) : List NetCall :=
  tf.map fun p =>
    NetCall.addResultForCase run p.1 (str "8") (str "Terraform Exception: " ++ p.2)

/-- Outcome of `publish_results_for_run`: calls issued, the accumulator after
the call, and whether the generic path aborted with Python's `IndexError`. -/
structure PubOut where
  calls : List NetCall
  results : List ResultRecord
  aborted : Bool
deriving DecidableEq

/-- `PyTestRailPlugin.publish_results_for_run` (plugin.py lines 284-301):
run the batch submission; on an error, either issue one Terraform submission
per extracted `(case id, message)` pair, or — when no Terraform pattern
matches — extract the invalid-id tokens and call `add_error_results` once
per token with that single token.  (The `valid_results` computed at line 297
is dead code and has no effect.) -/
def publish_results_for_run (cfg : Config) (o : Oracle) (run : Nat)
    (results : List ResultRecord) : PubOut :=
  let a := add_results cfg o run results
  match a.error with
  | none => { calls := a.calls, results := a.results, aborted := false }
  | some e =>
      let tf := extract_terraform_errors e
      if tf.isEmpty then
        match extractInvalidIds e with
        | none => { calls := a.calls, results := a.results, aborted := true }
        | some ids =>
            { calls := a.calls ++ ids.flatMap fun id => add_error_results run [id] e a.results
              results := a.results
              aborted := false }
      else
        { calls := a.calls ++ tfPosts run tf, results := a.results, aborted := false }

/-! ## Session finish (`pytest_sessionfinish`, plugin.py lines 255-282) -/

/-- The exceptions that can escape the session-finish publish step:
`noResults` is the deliberate `Exception("No test results to publish in
TestRail")` raised on an empty accumulator (plugin.py line 261);
`indexError` is the `IndexError` of the generic-id extraction. -/
inductive Abort where
  | noResults
  | indexError
deriving DecidableEq

/-- Sequential publication to every open run of the plan
(plugin.py lines 269-272), threading the accumulator through each call and
stopping at the first abort. -/
def publishRuns (cfg : Config) (o : Oracle) :
    List Nat → List ResultRecord → PubOut
  | [], rs => { calls := [], results := rs, aborted := false }
  | run :: rest, rs =>
      let p := publish_results_for_run cfg o run rs
      if p.aborted then p
      else
        let q := publishRuns cfg o rest p.results
        { calls := p.calls ++ q.calls, results := q.results, aborted := q.aborted }

/-- The routing part of `pytest_sessionfinish` (plugin.py lines 266-274):
an explicit run id wins over a plan id; with neither, nothing is
published. -/
def publishPhase (cfg : Config) (o : Oracle) (results : List ResultRecord) : PubOut :=
  if cfg.testrun_id ≠ 0 then
    publish_results_for_run cfg o cfg.testrun_id results
  else if cfg.testplan_id ≠ 0 then
    let p := publishRuns cfg o o.planRuns results
    { p with calls := NetCall.getPlan cfg.testplan_id :: p.calls }
  else
    { calls := [], results := results, aborted := false }

/-- The close-on-complete step (plugin.py lines 276-280). -/
def closePhase (cfg : Config) : List NetCall :=
  if cfg.close_on_complete then
    if cfg.testrun_id ≠ 0 then [NetCall.closeRun cfg.testrun_id]
    else if cfg.testplan_id ≠ 0 then [NetCall.closePlan cfg.testplan_id]
    else []
  else []

/-- Outcome of the session-finish hook: the network calls issued, the
exception that escaped (if any), and the accumulator afterwards. -/
structure SessionOut where
  calls : List NetCall
  raised : Option Abort
  results : List ResultRecord
deriving DecidableEq

/-- `PyTestRailPlugin.pytest_sessionfinish` (plugin.py lines 255-282): raise
on an empty accumulator before any network interaction; otherwise publish to
the selected run or to every open run of the selected plan, then close the
run or plan when configured (skipped when an exception propagates). -/
def pytest_sessionfinish (cfg : Config) (o : Oracle)
    (results : List ResultRecord) : SessionOut :=
  if results.isEmpty then
    { calls := [], raised := some Abort.noResults, results := results }
  else
    let p := publishPhase cfg o results
    if p.aborted then { calls := p.calls, raised := some Abort.indexError, results := p.results }
    else { calls := p.calls ++ closePhase cfg, raised := none, results := p.results }

/-! ## Concrete fixtures used by witnesses and counterexamples -/

/-- A default configuration: explicit run 1, publish-blocked enabled, no
custom comment, no version, no close-on-complete. -/
def cfg0 : Config :=
  { testrun_id := 1, testplan_id := 0, publish_blocked := true
    custom_comment := none, version := [], close_on_complete := false }

/-- A client whose batch submission succeeds. -/
def oracleOk : Oracle :=
  { tests := fun _ => [], batchResponse := fun _ => [], batchError := fun _ => none
    planRuns := [] }

/-- A record for case 17, passed, no comment. -/
def rec17 : ResultRecord :=
  { case_id := 17, status_id := 1, comment := [], duration := 0
    defects := none, test_parametrize := none }

/-- A record for case 99, passed, no comment. -/
def rec99 : ResultRecord :=
  { case_id := 99, status_id := 1, comment := [], duration := 0
    defects := none, test_parametrize := none }

/-- A record for case 10, passed. -/
def rec10 : ResultRecord :=
  { case_id := 10, status_id := 1, comment := [], duration := 0
    defects := none, test_parametrize := none }

/-- A record for case 5, failed. -/
def rec5 : ResultRecord :=
  { case_id := 5, status_id := 5, comment := [], duration := 0
    defects := none, test_parametrize := none }

/-- The generic batch error text of the C1 scenario. -/
def errGeneric : Str := str "(case 17 )"

/-- A client whose batch submission fails with `errGeneric`. -/
def oracleGeneric : Oracle :=
  { tests := fun _ => [], batchResponse := fun _ => []
    batchError := fun _ => some errGeneric, planRuns := [] }

/-- The Terraform batch error text of the C3 scenario (the final two
characters are a literal backslash and the letter n). -/
def errTerraform : Str := str "case 42 ... TerraformException: disk full\\n"

/-- A client whose batch submission fails with `errTerraform`. -/
def oracleTerraform : Oracle :=
  { tests := fun _ => [], batchResponse := fun _ => []
    batchError := fun _ => some errTerraform, planRuns := [] }

/-! ## General lemmas about the embedded operations -/

/-- `strContains` decides substring containment. -/
theorem strContains_iff (hay needle : Str) :
    strContains hay needle = true ↔ needle <:+: hay := by
  induction hay with
  | nil =>
      simp [strContains, List.isEmpty_iff]
  | cons c rest ih =>
      simp [strContains, ih, List.infix_cons_iff, List.isPrefixOf_iff_prefix]

/-- The heading `# Pytest result: #` is always contained in a comment built
from `commentHead`. -/
theorem commentHead_contains_heading (custom tp : Option Str) (rest : Str) :
    strContains (commentHead custom tp ++ rest) (str "# Pytest result: #\n") = true := by
  rw [strContains_iff]
  refine ⟨(if truthyOpt tp then str "# Test parametrize: #\n" ++ tp.getD [] ++ str "\n\n" else [])
      ++ (if truthyOpt custom then custom.getD [] ++ str "\n" else []), rest, ?_⟩
  simp [commentHead, List.append_assoc]

/-- `takeLast` is the identity on short inputs. -/
theorem takeLast_of_le (n : Nat) (s : Str) (h : s.length ≤ n) :
    takeLast n s = s := by
  simp [takeLast, Nat.sub_eq_zero_of_le h]

/-- The error returned by `add_results` is the client's batch error. -/
theorem add_results_error (cfg : Config) (o : Oracle) (run : Nat)
    (results : List ResultRecord) :
    (add_results cfg o run results).error = o.batchError run := rfl

/-- The accumulator after `add_results`: the in-place sort, then the blocked
filter. -/
theorem add_results_results (cfg : Config) (o : Oracle) (run : Nat)
    (results : List ResultRecord) :
    (add_results cfg o run results).results
      = filterBlocked cfg.publish_blocked (blockedList (o.tests run))
          (sortResults results) := rfl

/-- `publish_results_for_run` never modifies the accumulator beyond what
`add_results` did to it. -/
theorem publish_results_for_run_results (cfg : Config) (o : Oracle) (run : Nat)
    (results : List ResultRecord) :
    (publish_results_for_run cfg o run results).results
      = (add_results cfg o run results).results := by
  unfold publish_results_for_run
  dsimp only
  split
  · rfl
  · split
    · split <;> rfl
    · rfl

/-- The exclusion filter of `add_error_results` compares integer case ids
with string tokens, so it never excludes anything: one error submission is
issued per accumulated result. -/
theorem add_error_results_all (run : Nat) (id : Str) (e : Str)
    (results : List ResultRecord) :
    add_error_results run [id] e results
      = results.map fun r =>
          NetCall.addErrorSingle run
            { case_id := r.case_id, status_id := STATUS_FAILED
              comment := e, defects := [] } := by
  unfold add_error_results
  simp [pyEqNatStr]

/-! ## Claims -/

/-- C4: every record appended by a `add_result` call with the FAILED status
and a comment containing `TerraformException` carries the dedicated
infra-error status, never FAILED; any other status/comment combination is
recorded unchanged. -/
theorem c4_status_upgrade (results : List ResultRecord) (test_ids : List Nat)
    (status : Nat) (comment : Str) (defects : Option Str) (duration : Rat)
    (tp : Option Str) :
    (status = STATUS_FAILED →
      strContains comment (str "TerraformException") = true →
      ∀ r ∈ (add_result results test_ids status comment defects duration tp).drop
          results.length,
        r.status_id = STATUS_TERRAFORM ∧ r.status_id ≠ STATUS_FAILED) ∧
    ((status = STATUS_FAILED → strContains comment (str "TerraformException") = false) →
      ∀ r ∈ (add_result results test_ids status comment defects duration tp).drop
          results.length,
        r.status_id = status) := by
  have hdrop :
      (add_result results test_ids status comment defects duration tp).drop
          results.length
        = test_ids.map fun id =>
            { case_id := id, status_id := upgradeStatus status comment
              comment := comment, duration := duration, defects := defects
              test_parametrize := tp } := by
    unfold add_result
    exact List.drop_left results _
  constructor
  · intro h5 hmark r hr
    rw [hdrop] at hr
    obtain ⟨id, _, rfl⟩ := List.mem_map.mp hr
    have : upgradeStatus status comment = STATUS_TERRAFORM := by
      unfold upgradeStatus
      rw [if_pos ⟨h5, hmark⟩]
    refine ⟨this, ?_⟩
    show upgradeStatus status comment ≠ STATUS_FAILED
    rw [this]
    decide
  · intro hother r hr
    rw [hdrop] at hr
    obtain ⟨id, _, rfl⟩ := List.mem_map.mp hr
    show upgradeStatus status comment = status
    unfold upgradeStatus
    rw [if_neg]
    rintro ⟨h5, hmark⟩
    rw [hother h5] at hmark
    cases hmark

/-- Witness for `c4_status_upgrade` at a concrete call: one failed record
with a Terraform comment is upgraded to status 8. -/
theorem c4_status_upgrade_witness :
    (5 : Nat) = STATUS_FAILED ∧
    strContains (str "boom TerraformException: x") (str "TerraformException") = true ∧
    ∀ r ∈ (add_result [] [3] 5 (str "boom TerraformException: x") none 0 none).drop 0,
      r.status_id = STATUS_TERRAFORM ∧ r.status_id ≠ STATUS_FAILED := by
  refine ⟨rfl, by decide, ?_⟩
  have h := (c4_status_upgrade [] [3] 5 (str "boom TerraformException: x") none 0 none).1
    rfl (by decide)
  simpa using h

/-- C6: after the batch-construction sort, results are non-decreasing in
`case_id`, and results with equal `case_id` keep their original relative
order (the per-key filter of the sorted list equals the per-key filter of
the input). -/
theorem c6_sort_stable (results : List ResultRecord) :
    List.Sorted caseLE (sortResults results) ∧
    ∀ c : Nat,
      (sortResults results).filter (fun r => r.case_id == c)
        = results.filter (fun r => r.case_id == c) := by
  constructor
  · exact List.sorted_insertionSort caseLE results
  · intro c
    have hmemp : ∀ a ∈ results.filter (fun r : ResultRecord => r.case_id == c),
        a.case_id = c := by
      intro a ha
      have := List.of_mem_filter ha
      simpa using this
    have hpair : (results.filter (fun r : ResultRecord => r.case_id == c)).Pairwise caseLE := by
      apply List.pairwise_of_forall_mem_list
      intro a ha b hb
      show a.case_id ≤ b.case_id
      rw [hmemp a ha, hmemp b hb]
    have h1 : List.Sublist (results.filter (fun r : ResultRecord => r.case_id == c))
        (sortResults results) :=
      List.sublist_insertionSort hpair (List.filter_sublist results)
    have h2 : List.Sublist (results.filter (fun r : ResultRecord => r.case_id == c))
        ((sortResults results).filter (fun r => r.case_id == c)) := by
      have h3 := h1.filter (fun r : ResultRecord => r.case_id == c)
      rwa [List.filter_eq_self.mpr (fun a ha => (List.mem_filter.mp ha).2)] at h3
    have hperm : List.Perm ((sortResults results).filter (fun r => r.case_id == c))
        (results.filter (fun r : ResultRecord => r.case_id == c)) :=
      (List.perm_insertionSort caseLE results).filter _
    exact (h2.eq_of_length hperm.length_eq.symm).symm

/-- C10: a result with an empty comment gets the configured custom comment
(possibly Python None) as its uploaded comment field, and the
`# Pytest result: #` heading is attached exactly to the entries built from a
non-empty comment. -/
theorem c10_empty_comment :
    (∀ (custom : Option Str) (tp : Option Str),
      buildCommentField custom [] tp = custom) ∧
    (∀ (cfg : Config) (r : ResultRecord), r.comment = [] →
      (buildEntry cfg r).comment = cfg.custom_comment) ∧
    (∀ (custom : Option Str) (tp : Option Str) (c : Str), c ≠ [] →
      ∃ u, buildCommentField custom c tp = some u ∧
        strContains u (str "# Pytest result: #\n") = true) := by
  refine ⟨fun custom tp => rfl, fun cfg r h => ?_, fun custom tp c hc => ?_⟩
  · show buildCommentField cfg.custom_comment r.comment r.test_parametrize
      = cfg.custom_comment
    rw [h]
    rfl
  · have hne : c.isEmpty = false := by simpa [List.isEmpty_iff] using hc
    refine ⟨commentHead custom tp
        ++ ((if COMMENT_SIZE_LIMIT < c.length then str "Log truncated\n...\n" else [])
            ++ (str "    " ++ pyIndent (takeLast COMMENT_SIZE_LIMIT c))), ?_, ?_⟩
    · simp [buildCommentField, hne, List.append_assoc]
    · exact commentHead_contains_heading custom tp _

/-- Witness for `c10_empty_comment` at concrete inputs. -/
theorem c10_empty_comment_witness :
    (buildEntry cfg0 rec17).comment = cfg0.custom_comment ∧
    ∃ u, buildCommentField none (str "x") none = some u ∧
      strContains u (str "# Pytest result: #\n") = true :=
  ⟨c10_empty_comment.2.1 cfg0 rec17 rfl,
   c10_empty_comment.2.2 none none (str "x") (by decide)⟩

/-- C2: the session-finish publish step raises the no-results error exactly
when the accumulator is empty, and in that case it issues no network call
and leaves the accumulator untouched. -/
theorem c2_empty_publish (cfg : Config) (o : Oracle) (results : List ResultRecord) :
    ((pytest_sessionfinish cfg o results).raised = some Abort.noResults ↔ results = []) ∧
    (results = [] →
      pytest_sessionfinish cfg o results
        = { calls := [], raised := some Abort.noResults, results := results }) := by
  constructor
  · constructor
    · intro hr
      by_contra hne
      have hE : results.isEmpty = false := by
        simpa [List.isEmpty_iff] using hne
      rw [pytest_sessionfinish] at hr
      rw [hE] at hr
      simp only [Bool.false_eq_true, if_false] at hr
      rcases h2 : (publishPhase cfg o results).aborted with _ | _ <;>
        simp [h2] at hr
    · intro h
      subst h
      rfl
  · intro h
    subst h
    rfl

/-- Witness for `c2_empty_publish`: the empty accumulator aborts with the
no-results error, no calls made. -/
theorem c2_empty_publish_witness :
    pytest_sessionfinish cfg0 oracleOk []
      = { calls := [], raised := some Abort.noResults, results := [] } :=
  (c2_empty_publish cfg0 oracleOk []).2 rfl

/-- Python `round` maps every rational to a nearest integer. -/
theorem pyRound_nearest (q : Rat) (m : Int) :
    |q - (pyRound q : Rat)| ≤ |q - (m : Rat)| := by
  have hf1 : ((⌊q⌋ : Int) : Rat) ≤ q := Int.floor_le q
  have hf2 : q < (⌊q⌋ : Rat) + 1 := Int.lt_floor_add_one q
  have hm : (m : Rat) ≤ (⌊q⌋ : Rat) ∨ (⌊q⌋ : Rat) + 1 ≤ (m : Rat) := by
    rcases Int.le_or_lt m ⌊q⌋ with h | h
    · left
      exact_mod_cast h
    · right
      have h2 : ⌊q⌋ + 1 ≤ m := h
      exact_mod_cast h2
  have labs1 : q - (m : Rat) ≤ |q - (m : Rat)| := le_abs_self _
  have labs2 : (m : Rat) - q ≤ |q - (m : Rat)| := by
    rw [abs_sub_comm]
    exact le_abs_self _
  unfold pyRound
  split_ifs with h1 h2 h3
  · rw [abs_of_nonneg (by linarith)]
    rcases hm with hm | hm
    · linarith
    · linarith
  · push_cast
    rw [abs_of_nonpos (by linarith)]
    rcases hm with hm | hm
    · linarith
    · linarith
  · have htie : q - (⌊q⌋ : Rat) = 1 / 2 := le_antisymm (not_lt.mp h2) (not_lt.mp h1)
    rw [abs_of_nonneg (by linarith)]
    rcases hm with hm | hm
    · linarith
    · linarith
  · have htie : q - (⌊q⌋ : Rat) = 1 / 2 := le_antisymm (not_lt.mp h2) (not_lt.mp h1)
    push_cast
    rw [abs_of_nonpos (by linarith)]
    rcases hm with hm | hm
    · linarith
    · linarith

/-- C7: the `elapsed` payload field is absent for a zero duration, `1s` for
positive sub-second durations, and otherwise the duration rounded to a
nearest whole second with an `s` suffix; in particular 0.4 and 1.4 give
`1s`, and 2.6 gives `3s`. -/
theorem c7_duration_rounding :
    (∀ (cfg : Config) (r : ResultRecord),
      (r.duration = 0 → (buildEntry cfg r).elapsed = none) ∧
      (0 < r.duration → r.duration < 1 →
        (buildEntry cfg r).elapsed = some (str "1s")) ∧
      (1 ≤ r.duration → ∃ n : Int,
        (buildEntry cfg r).elapsed = some (intToStr n ++ str "s") ∧
        ∀ m : Int, |r.duration - (n : Rat)| ≤ |r.duration - (m : Rat)|)) ∧
    elapsedField (2 / 5) = some (str "1s") ∧
    elapsedField (7 / 5) = some (str "1s") ∧
    elapsedField (13 / 5) = some (str "3s") ∧
    elapsedField 0 = none := by
  refine ⟨fun cfg r => ⟨?_, ?_, ?_⟩, ?_, ?_, ?_, by simp [elapsedField]⟩
  · intro h
    show elapsedField r.duration = none
    rw [h]
    simp [elapsedField]
  · intro h0 h1
    show elapsedField r.duration = some (str "1s")
    unfold elapsedField
    rw [if_neg (ne_of_gt h0), if_pos h1]
    rfl
  · intro h1
    refine ⟨pyRound r.duration, ?_, fun m => pyRound_nearest r.duration m⟩
    show elapsedField r.duration = some (intToStr (pyRound r.duration) ++ str "s")
    unfold elapsedField
    rw [if_neg (by intro h; rw [h] at h1; norm_num at h1), if_neg (not_lt.mpr h1)]
  · have h : elapsedField (2 / 5 : Rat) = some (intToStr 1 ++ str "s") := by
      unfold elapsedField
      rw [if_neg (by norm_num), if_pos (by norm_num)]
    rw [h]
    rfl
  · have hf : ⌊(7 : Rat) / 5⌋ = 1 := by norm_num
    have hpr : pyRound ((7 : Rat) / 5) = 1 := by
      unfold pyRound
      rw [hf]
      norm_num
    have h : elapsedField (7 / 5 : Rat) = some (intToStr (pyRound (7 / 5)) ++ str "s") := by
      unfold elapsedField
      rw [if_neg (by norm_num), if_neg (by norm_num)]
    rw [h, hpr]
    rfl
  · have hf : ⌊(13 : Rat) / 5⌋ = 2 := by norm_num
    have hpr : pyRound ((13 : Rat) / 5) = 3 := by
      unfold pyRound
      rw [hf]
      norm_num
    have h : elapsedField (13 / 5 : Rat) = some (intToStr (pyRound (13 / 5)) ++ str "s") := by
      unfold elapsedField
      rw [if_neg (by norm_num), if_neg (by norm_num)]
    rw [h, hpr]
    rfl

/-- A record with duration 2.6 seconds. -/
def recDur : ResultRecord :=
  { case_id := 1, status_id := 1, comment := [], duration := 13 / 5
    defects := none, test_parametrize := none }

/-- Witness for `c7_duration_rounding` at concrete records: zero duration
gives no elapsed field, duration 2.6 gives a nearest-integer rounding. -/
theorem c7_duration_rounding_witness :
    (buildEntry cfg0 rec17).elapsed = none ∧
    ∃ n : Int, (buildEntry cfg0 recDur).elapsed = some (intToStr n ++ str "s") ∧
      ∀ m : Int, |recDur.duration - (n : Rat)| ≤ |recDur.duration - (m : Rat)| :=
  ⟨(c7_duration_rounding.1 cfg0 rec17).1 rfl,
   (c7_duration_rounding.1 cfg0 recDur).2.2 (by norm_num [recDur])⟩

/-- Python dictionary lookup on the association-list model. -/
def lookupAssoc (d : List (Str × Str)) (k : Str) : Option Str :=
  (d.find? fun p => p.1 == k).map Prod.snd

/-- Unfolding lemma for `lookupAssoc` on a cons. -/
theorem lookupAssoc_cons (p : Str × Str) (d : List (Str × Str)) (k : Str) :
    lookupAssoc (p :: d) k = if p.1 = k then some p.2 else lookupAssoc d k := by
  by_cases h : p.1 = k
  · rw [if_pos h]
    unfold lookupAssoc
    rw [List.find?_cons_of_pos _ (by simpa using h)]
    rfl
  · rw [if_neg h]
    unfold lookupAssoc
    rw [List.find?_cons_of_neg _ (by simpa using h)]

/-- Dictionary assignment updates exactly the assigned key. -/
theorem lookup_dictInsert (d : List (Str × Str)) (k v k' : Str) :
    lookupAssoc (dictInsert d k v) k'
      = if k' = k then some v else lookupAssoc d k' := by
  induction d with
  | nil =>
      by_cases h : k' = k
      · rw [if_pos h]
        show lookupAssoc [(k, v)] k' = some v
        rw [lookupAssoc_cons, if_pos h.symm]
      · rw [if_neg h]
        show lookupAssoc [(k, v)] k' = lookupAssoc [] k'
        rw [lookupAssoc_cons, if_neg fun hh => h hh.symm]
  | cons p rest ih =>
      unfold dictInsert
      by_cases hp : p.1 = k
      · rw [if_pos hp, lookupAssoc_cons]
        by_cases hk : k' = k
        · rw [if_pos hk.symm, if_pos hk]
        · rw [if_neg fun hh => hk hh.symm, if_neg hk, lookupAssoc_cons,
            if_neg fun hh => hk (hp ▸ hh).symm]
      · rw [if_neg hp, lookupAssoc_cons]
        by_cases hc : p.1 = k'
        · rw [if_pos hc, if_neg fun hh => hp (hc.trans hh), lookupAssoc_cons, if_pos hc]
        · rw [if_neg hc, ih]
          by_cases hk : k' = k
          · rw [if_pos hk, if_pos hk]
          · rw [if_neg hk, if_neg hk, lookupAssoc_cons, if_neg hc]

/-- The keys produced by a dictionary assignment. -/
theorem mem_keys_dictInsert (d : List (Str × Str)) (k v x : Str) :
    x ∈ (dictInsert d k v).map Prod.fst ↔ x ∈ d.map Prod.fst ∨ x = k := by
  induction d with
  | nil => simp [dictInsert]
  | cons p rest ih =>
      by_cases hp : p.1 = k
      · rw [dictInsert, if_pos hp, List.map_cons, List.map_cons]
        simp only [List.mem_cons, hp]
        tauto
      · rw [dictInsert, if_neg hp, List.map_cons, List.map_cons]
        simp only [List.mem_cons, ih]
        tauto

/-- Dictionary assignment preserves distinctness of keys. -/
theorem keys_nodup_dictInsert (d : List (Str × Str)) (k v : Str)
    (h : (d.map Prod.fst).Nodup) :
    ((dictInsert d k v).map Prod.fst).Nodup := by
  induction d with
  | nil => simp [dictInsert]
  | cons p rest ih =>
      rw [List.map_cons, List.nodup_cons] at h
      obtain ⟨hnm, hnd⟩ := h
      by_cases hp : p.1 = k
      · rw [dictInsert, if_pos hp, List.map_cons, List.nodup_cons]
        exact ⟨hp ▸ hnm, hnd⟩
      · rw [dictInsert, if_neg hp, List.map_cons, List.nodup_cons]
        refine ⟨?_, ih hnd⟩
        rw [mem_keys_dictInsert]
        rintro (hm | hm)
        · exact hnm hm
        · exact hp hm

/-- `getLast?` of a cons, phrased with `Option.or`. -/
theorem getLast?_cons_eq_or {α : Type} (a : α) (l : List α) :
    (a :: l).getLast? = l.getLast?.or (some a) := by
  induction l generalizing a with
  | nil => rfl
  | cons b t ih =>
      rw [List.getLast?_cons_cons, ih b]
      cases t.getLast? <;> rfl

/-- Folding matches into a Python dict: the lookup of a key is the value of
its last match, falling back to the initial dictionary. -/
theorem lookup_foldl (ms : List (Str × Str)) (d : List (Str × Str)) (k : Str) :
    lookupAssoc (ms.foldl (fun d p => dictInsert d p.1 p.2) d) k
      = (((ms.filter fun p => p.1 == k).map Prod.snd).getLast?).or (lookupAssoc d k) := by
  induction ms generalizing d with
  | nil => simp
  | cons p rest ih =>
      rw [List.foldl_cons, ih]
      by_cases hk : p.1 = k
      · rw [List.filter_cons_of_pos (by simpa using hk), List.map_cons,
          getLast?_cons_eq_or, lookup_dictInsert, if_pos hk.symm]
        cases ((rest.filter fun p => p.1 == k).map Prod.snd).getLast? <;> rfl
      · rw [List.filter_cons_of_neg (by simpa using hk), lookup_dictInsert,
          if_neg fun hh => hk hh.symm]

/-- C9: the Terraform-error extraction returns at most one message per case
id — the message of the last regex match for that id — so the Terraform
reconciliation issues at most one submission per distinct case id. -/
theorem c9_extract_last_match (e : Str) :
    ((extract_terraform_errors e).map Prod.fst).Nodup ∧
    (∀ k, lookupAssoc (extract_terraform_errors e) k
        = (((tfMatches e).filter fun p => p.1 == k).map Prod.snd).getLast?) ∧
    ∀ run, ((tfPosts run (extract_terraform_errors e)).filterMap netCallTestId).Nodup := by
  have hnodup : ∀ (ms d : List (Str × Str)), (d.map Prod.fst).Nodup →
      ((ms.foldl (fun d p => dictInsert d p.1 p.2) d).map Prod.fst).Nodup := by
    intro ms
    induction ms with
    | nil => intro d h; simpa using h
    | cons p rest ih =>
        intro d h
        rw [List.foldl_cons]
        exact ih _ (keys_nodup_dictInsert _ _ _ h)
  have hn : ((extract_terraform_errors e).map Prod.fst).Nodup :=
    hnodup (tfMatches e) [] (by simp)
  refine ⟨hn, fun k => ?_, fun run => ?_⟩
  · show lookupAssoc ((tfMatches e).foldl (fun d p => dictInsert d p.1 p.2) []) k = _
    rw [lookup_foldl]
    exact Option.or_none
  · have hmap : ∀ l : List (Str × Str),
        (tfPosts run l).filterMap netCallTestId = l.map Prod.fst := by
      intro l
      induction l with
      | nil => rfl
      | cons q t ih =>
          simp only [tfPosts, List.map_cons, List.filterMap_cons, netCallTestId] at ih ⊢
          rw [ih]
    rw [hmap]
    exact hn

/-- C3: on a batch error whose text matches the Terraform pattern, exactly
one `add_result_for_case` submission is issued per extracted
`(case id, message)` pair, with status `8` and comment
`Terraform Exception: <message>`; the C3 scenario text (ending in a literal
backslash and `n`) extracts exactly the pair (42, disk full). -/
theorem c3_terraform_path (cfg : Config) (o : Oracle) (run : Nat)
    (results : List ResultRecord) (e : Str)
    (he : o.batchError run = some e)
    (hne : extract_terraform_errors e ≠ []) :
    ((publish_results_for_run cfg o run results).calls
        = (add_results cfg o run results).calls
          ++ (extract_terraform_errors e).map (fun p =>
              NetCall.addResultForCase run p.1 (str "8")
                (str "Terraform Exception: " ++ p.2))) ∧
    extract_terraform_errors (str "case 42 ... TerraformException: disk full\\n")
      = [(str "42", str "disk full")] := by
  constructor
  · unfold publish_results_for_run
    dsimp only
    rw [show (add_results cfg o run results).error = some e from he]
    dsimp only
    rw [if_neg (by simpa [List.isEmpty_iff] using hne)]
    rfl
  · decide

/-- Witness for `c3_terraform_path`: the C3 scenario issues one Terraform
submission for case 42. -/
theorem c3_terraform_path_witness :
    oracleTerraform.batchError 1 = some errTerraform ∧
    extract_terraform_errors errTerraform ≠ [] ∧
    (publish_results_for_run cfg0 oracleTerraform 1 []).calls
      = (add_results cfg0 oracleTerraform 1 []).calls
        ++ [NetCall.addResultForCase 1 (str "42") (str "8")
              (str "Terraform Exception: disk full")] := by
  refine ⟨rfl, by decide, ?_⟩
  have h := (c3_terraform_path cfg0 oracleTerraform 1 [] errTerraform rfl (by decide)).1
  rw [h]
  decide

/-- C1 as amended: on a generic (non-Terraform) batch error, the accumulated
results are not touched — the publish step leaves them as `add_results` left
them — and for each case-id token extracted from the error text one
`add_error_results` call is made which, because the integer case ids never
equal the string tokens, submits one individual failed-status error result
(original error text as comment, empty defects) for EVERY accumulated
result, including those whose ids appear in the error. -/
theorem c1_generic_reconciliation (cfg : Config) (o : Oracle) (run : Nat)
    (results : List ResultRecord) (e : Str) (ids : List Str)
    (he : o.batchError run = some e)
    (htf : extract_terraform_errors e = [])
    (hids : extractInvalidIds e = some ids)
    (hpb : cfg.publish_blocked = true) :
    (publish_results_for_run cfg o run results).results = sortResults results ∧
    (publish_results_for_run cfg o run results).calls
      = (add_results cfg o run results).calls
        ++ ids.flatMap (fun _ => (sortResults results).map fun r =>
            NetCall.addErrorSingle run
              { case_id := r.case_id, status_id := STATUS_FAILED
                comment := e, defects := [] }) := by
  have hres : (add_results cfg o run results).results = sortResults results := by
    rw [add_results_results, hpb]
    rfl
  constructor
  · rw [publish_results_for_run_results, hres]
  · unfold publish_results_for_run
    dsimp only
    rw [show (add_results cfg o run results).error = some e from he]
    dsimp only
    rw [if_pos (by simp [htf])]
    rw [show extractInvalidIds e = some ids from hids]
    dsimp only
    rw [hres]
    simp only [add_error_results_all]

/-- Witness for `c1_generic_reconciliation`: with accumulated results for
cases 17 and 99 and the error `(case 17 )`, both cases get one error
submission each. -/
theorem c1_generic_reconciliation_witness :
    oracleGeneric.batchError 1 = some errGeneric ∧
    extract_terraform_errors errGeneric = [] ∧
    extractInvalidIds errGeneric = some [str "17"] ∧
    (publish_results_for_run cfg0 oracleGeneric 1 [rec17, rec99]).calls
      = (add_results cfg0 oracleGeneric 1 [rec17, rec99]).calls
        ++ [NetCall.addErrorSingle 1
              { case_id := 17, status_id := 5, comment := errGeneric, defects := [] },
            NetCall.addErrorSingle 1
              { case_id := 99, status_id := 5, comment := errGeneric, defects := [] }] := by
  refine ⟨rfl, by decide, by decide, ?_⟩
  have h := (c1_generic_reconciliation cfg0 oracleGeneric 1 [rec17, rec99] errGeneric
      [str "17"] rfl (by decide) (by decide) rfl).2
  rw [h]
  decide

/-- Counterexample to C1 as stated: with accumulated results for cases 17
and 99 and the batch error `(case 17 )`, case 17 is NOT removed from the
accumulated results, and case 99 — not mentioned in the error — IS
resubmitted as an error result. -/
theorem c1_counterexample :
    ((publish_results_for_run cfg0 oracleGeneric 1 [rec17, rec99]).results.any
        fun r => r.case_id == 17) = true ∧
    ((publish_results_for_run cfg0 oracleGeneric 1 [rec17, rec99]).calls.any
        fun c => match c with
          | NetCall.addErrorSingle _ en => en.case_id == 99
          | _ => false) = true := by
  decide

/-- The over-limit comment of the C5 counterexample: 4001 characters whose
last 4000 start with a newline. -/
def c5comment : Str := 'b' :: '\n' :: List.replicate 3999 'a'

/-- Everything the upload places before the re-indented tail of
`c5comment`: heading, truncation marker, four-space indent. -/
def c5head : Str :=
  commentHead none none ++ str "Log truncated\n...\n" ++ str "    "

/-- The comment field uploaded for `c5comment`. -/
def c5upload : Str := c5head ++ pyIndent (takeLast COMMENT_SIZE_LIMIT c5comment)

/-- Re-indentation does not change runs of `a` characters. -/
theorem pyIndent_replicate (n : Nat) :
    pyIndent (List.replicate n 'a') = List.replicate n 'a' := by
  induction n with
  | zero => rfl
  | succ k ih =>
      rw [List.replicate_succ, pyIndent, if_neg (by decide), ih]

/-- Two suffixes of the same list with the same length are equal. -/
theorem suffix_eq_of_length {l s t : Str} (hs : s <:+ l) (ht : t <:+ l)
    (h : s.length = t.length) : s = t := by
  obtain ⟨a, ha⟩ := hs
  obtain ⟨b, hb⟩ := ht
  have hab : b ++ t = a ++ s := hb.trans ha.symm
  have hlen : b.length = a.length := by
    have hl := congrArg List.length hab
    simp only [List.length_append] at hl
    omega
  exact ((List.append_inj hab hlen).2).symm

/-- The length of the C5 comment. -/
theorem c5comment_length : c5comment.length = 4001 := by
  show ('b' :: '\n' :: List.replicate 3999 'a').length = 4001
  rw [List.length_cons, List.length_cons, List.length_replicate]

/-- The last 4000 characters of the C5 comment. -/
theorem c5comment_tail :
    takeLast COMMENT_SIZE_LIMIT c5comment = '\n' :: List.replicate 3999 'a' := by
  unfold takeLast
  rw [c5comment_length]
  show c5comment.drop (4001 - 4000) = _
  norm_num [COMMENT_SIZE_LIMIT]
  rfl

/-- The re-indented tail of the C5 comment starts with a newline and four
spaces. -/
theorem c5comment_tail_indent :
    pyIndent ('\n' :: List.replicate 3999 'a')
      = '\n' :: ' ' :: ' ' :: ' ' :: ' ' :: List.replicate 3999 'a' := by
  rw [pyIndent, if_pos rfl, pyIndent_replicate]

/-- Counterexample to C5 as stated: the uploaded comment does NOT end with
the last 4000 characters of the original comment, because the kept tail is
re-indented (each newline becomes a newline plus four spaces) before
upload. -/
theorem c5_counterexample :
    COMMENT_SIZE_LIMIT < c5comment.length ∧
    buildCommentField none c5comment none = some c5upload ∧
    (takeLast COMMENT_SIZE_LIMIT c5comment).isSuffixOf c5upload = false := by
  have hlt : COMMENT_SIZE_LIMIT < c5comment.length := by
    rw [c5comment_length]
    norm_num [COMMENT_SIZE_LIMIT]
  refine ⟨hlt, ?_, ?_⟩
  · have hne : c5comment.isEmpty = false := rfl
    simp [buildCommentField, hne, hlt, c5upload, c5head, List.append_assoc]
  · have h2 : (' ' :: List.replicate 3999 'a') <:+ c5upload := by
      refine ⟨c5head ++ ['\n', ' ', ' ', ' '], ?_⟩
      rw [c5upload, c5comment_tail, c5comment_tail_indent, List.append_assoc]
      rfl
    simp only [Bool.eq_false_iff, Ne, List.isSuffixOf_iff_suffix]
    intro h1
    have heq := suffix_eq_of_length h1 h2
      (by rw [c5comment_tail, List.length_cons, List.length_cons])
    rw [c5comment_tail] at heq
    injection heq with hh _
    exact absurd hh (by decide)

/-- C5 as amended: the uploaded comment of a non-empty accumulated comment
ends with the re-indented last 4000 characters of the original; the
truncation marker is present exactly when the comment exceeds the limit, and
comments at or under the limit are uploaded in full (re-indented) with no
marker inserted. -/
theorem c5_truncation (custom tp : Option Str) (c : Str) (hc : c ≠ []) :
    ∃ u, buildCommentField custom c tp = some u ∧
      (pyIndent (takeLast COMMENT_SIZE_LIMIT c)).isSuffixOf u = true ∧
      (COMMENT_SIZE_LIMIT < c.length →
        strContains u (str "Log truncated\n...\n") = true) ∧
      (c.length ≤ COMMENT_SIZE_LIMIT →
        u = commentHead custom tp ++ (str "    " ++ pyIndent c)) := by
  have hne : c.isEmpty = false := by simpa [List.isEmpty_iff] using hc
  refine ⟨commentHead custom tp
      ++ ((if COMMENT_SIZE_LIMIT < c.length then str "Log truncated\n...\n" else [])
          ++ (str "    " ++ pyIndent (takeLast COMMENT_SIZE_LIMIT c))), ?_, ?_, ?_, ?_⟩
  · simp [buildCommentField, hne, List.append_assoc]
  · simp only [List.isSuffixOf_iff_suffix]
    refine ⟨commentHead custom tp
        ++ ((if COMMENT_SIZE_LIMIT < c.length then str "Log truncated\n...\n" else [])
            ++ str "    "), ?_⟩
    simp [List.append_assoc]
  · intro hlong
    rw [if_pos hlong, strContains_iff]
    exact ⟨commentHead custom tp,
      str "    " ++ pyIndent (takeLast COMMENT_SIZE_LIMIT c),
      by simp [List.append_assoc]⟩
  · intro hshort
    rw [if_neg (not_lt.mpr hshort), takeLast_of_le _ _ hshort]
    simp

/-- Witness for `c5_truncation` at a short concrete comment. -/
theorem c5_truncation_witness :
    ∃ u, buildCommentField none (str "ok") none = some u ∧
      (pyIndent (takeLast COMMENT_SIZE_LIMIT (str "ok"))).isSuffixOf u = true ∧
      (COMMENT_SIZE_LIMIT < (str "ok").length →
        strContains u (str "Log truncated\n...\n") = true) ∧
      ((str "ok").length ≤ COMMENT_SIZE_LIMIT →
        u = commentHead none none ++ (str "    " ++ pyIndent (str "ok"))) :=
  c5_truncation none none (str "ok") (by decide)

/-- C8 as amended: the session-finish publish step (run mode) mutates the
accumulator — it is left stably sorted by `case_id` and, when
`publish_blocked` is disabled, stripped of blocked cases; with
`publish_blocked` enabled the final accumulator is a permutation of the
original, but not the original sequence. -/
theorem c8_publish_mutates (cfg : Config) (o : Oracle) (results : List ResultRecord)
    (h : cfg.testrun_id ≠ 0) :
    (pytest_sessionfinish cfg o results).results
      = filterBlocked cfg.publish_blocked (blockedList (o.tests cfg.testrun_id))
          (sortResults results) ∧
    (cfg.publish_blocked = true →
      List.Perm (pytest_sessionfinish cfg o results).results results) := by
  have hmain : (pytest_sessionfinish cfg o results).results
      = filterBlocked cfg.publish_blocked (blockedList (o.tests cfg.testrun_id))
          (sortResults results) := by
    cases hE : results.isEmpty
    · unfold pytest_sessionfinish
      rw [hE]
      dsimp only [Bool.false_eq_true, if_false]
      cases hab : (publishPhase cfg o results).aborted <;>
        simp only [hab, Bool.false_eq_true, if_false, if_true] <;>
        · show (publishPhase cfg o results).results = _
          unfold publishPhase
          rw [if_pos h, publish_results_for_run_results, add_results_results]
    · have hnil : results = [] := List.isEmpty_iff.mp hE
      subst hnil
      show ([] : List ResultRecord) = _
      cases cfg.publish_blocked <;> rfl
  refine ⟨hmain, fun hpb => ?_⟩
  rw [hmain, hpb]
  show List.Perm (filterBlocked true (blockedList (o.tests cfg.testrun_id))
    (sortResults results)) results
  have : filterBlocked true (blockedList (o.tests cfg.testrun_id))
      (sortResults results) = sortResults results := rfl
  rw [this]
  exact List.perm_insertionSort caseLE results

/-- Witness for `c8_publish_mutates` at a concrete state. -/
theorem c8_publish_mutates_witness :
    (pytest_sessionfinish cfg0 oracleOk [rec10]).results
      = filterBlocked cfg0.publish_blocked (blockedList (oracleOk.tests cfg0.testrun_id))
          (sortResults [rec10]) ∧
    List.Perm (pytest_sessionfinish cfg0 oracleOk [rec10]).results [rec10] :=
  ⟨(c8_publish_mutates cfg0 oracleOk [rec10] (by decide)).1,
   (c8_publish_mutates cfg0 oracleOk [rec10] (by decide)).2 rfl⟩

/-- Counterexample to C8 as stated: publishing reorders the accumulator in
place (cases 10 and 5 are recorded in that order, and come back sorted). -/
theorem c8_counterexample :
    (pytest_sessionfinish cfg0 oracleOk [rec10, rec5]).results ≠ [rec10, rec5] := by
  decide

end PytestTestrail
